import Mathlib

/-!
Verification development for the Tickio inventory-reservation and checkout
engine (`Tickio_project/orders/services.py`, `Tickio_project/orders/views.py`,
`Tickio_project/orders/models.py`, `Tickio_project/events/models.py`,
`Tickio_project/events/repositories.py`).

The Django models become plain structures; database tables become lists of
rows inside `DBState`.  Python ints are `Int` (quantities coming from carts
may be arbitrary integers), Django `PositiveIntegerField` columns that only
ever store database-validated values are `Nat`, and `Decimal` prices are
`Int` (fixed-point money).  Each service/view function is translated into a
pure function; `@transaction.atomic` becomes a wrapper that restores the
pre-call state when the body raises, and `select_for_update` row locking is
reflected by serializing whole checkouts in `runSchedule`.  Database check
constraints (`tickettype_sold_gte_0`, `PositiveIntegerField` on
`OrderItem.quantity`) are modelled as integrity failures at the point where
the corresponding SQL statement would run.
-/

namespace Tickio

/-- events.models.TicketType row. -/
structure TicketType where
  id : Nat
  eventId : Nat
  name : String
  price : Int
  capacity : Nat
  sold : Nat
  active : Bool
deriving DecidableEq, Repr

/-- orders.models.TicketHold row. -/
structure TicketHold where
  ticketTypeId : Nat
  userId : Option Nat
  sessionKey : String
  quantity : Nat
  createdAt : Nat
  expiresAt : Nat
deriving DecidableEq, Repr

/-- orders.models.Order row. -/
structure Order where
  id : Nat
  userId : Nat
  status : String
  totalAmount : Int
deriving DecidableEq, Repr

/-- orders.models.OrderItem row (quantity is `Int`: the service casts raw
cart data with `int(...)`, the database constraint is checked separately). -/
structure OrderItem where
  orderId : Nat
  eventId : Nat
  ticketTypeId : Nat
  name : String
  unitPrice : Int
  quantity : Int
  lineTotal : Int
deriving DecidableEq, Repr

/-- orders.models.Ticket row; `uniqueCode` models the uuid4 column, drawn
from a fresh-code counter so that uniqueness is expressible. -/
structure Ticket where
  orderId : Nat
  ticketTypeId : Nat
  userId : Nat
  eventId : Nat
  uniqueCode : Nat
deriving DecidableEq, Repr

/-- The Django request user as seen by the services. -/
structure UserRef where
  id : Nat
  isAuthenticated : Bool
deriving DecidableEq, Repr

/-- One entry of the session cart dict handed to `OrderService.checkout`:
`{'ticket_type_id': ..., 'quantity': ...}` after the `int(...)` casts. -/
structure CartLine where
  ticketTypeId : Nat
  quantity : Int
deriving DecidableEq, Repr

/-- The persistent store: one list per table plus fresh-id counters. -/
structure DBState where
  ticketTypes : List TicketType
  holds : List TicketHold
  orders : List Order
  orderItems : List OrderItem
  tickets : List Ticket
  nextOrderId : Nat
  nextCode : Nat
deriving DecidableEq, Repr

/-- Errors raised during checkout; every constructor corresponds to one
`raise ValidationError(...)` site (or a database integrity failure that the
surrounding `except Exception` turns into one). -/
inductive CheckoutErr where
  /-- "El carrito está vacío" -/
  | emptyCart
  /-- "Es necesario iniciar sesión para comprar" -/
  | notAuthenticated
  /-- "No hay suficientes boletos disponibles. ..." raised by
  `TicketService.validate_ticket_availability`. -/
  | unavailable
  /-- "Tipo de boleto no encontrado o inactivo" -/
  | ticketTypeNotFound
  /-- "No hay disponibilidad suficiente para ..." raised inside
  `OrderService.create_order_items` under the row lock. -/
  | insufficientInventory (name : String)
  /-- database check-constraint violation -/
  | integrityError
  /-- "El pago fue rechazado. Por favor intente de nuevo." -/
  | paymentRejected
deriving DecidableEq, Repr

/-- `TicketType.objects.filter(id=i).first()`. -/
def findTicketType (tts : List TicketType) (i : Nat) : Option TicketType :=
  tts.find? (fun tt => tt.id == i)

/-- `TicketType.objects.get(pk=i, active=True)` (as an `Option`). -/
def findActiveTicketType (tts : List TicketType) (i : Nat) : Option TicketType :=
  tts.find? (fun tt => tt.id == i && tt.active)

/-- events.repositories.TicketTypeRepository.check_availability. -/
def check_availability (tts : List TicketType) (ticketTypeId : Nat) (quantity : Int) : Bool :=
  match findTicketType tts ticketTypeId with
  | none => false
  | some tt => decide (quantity ≤ max ((tt.capacity : Int) - (tt.sold : Int)) 0)

/-- The per-line loop of `OrderService.validate_checkout_request`, raising
(through `TicketService.validate_ticket_availability`) on the first line
without availability. -/
def validateLines (tts : List TicketType) : List CartLine → Except CheckoutErr Unit
  | [] => .ok ()
  | l :: ls =>
    if check_availability tts l.ticketTypeId l.quantity then validateLines tts ls
    else .error .unavailable

/-- OrderService.validate_checkout_request. -/
def validate_checkout_request (tts : List TicketType) (cart : List CartLine)
    (user : Option UserRef) : Except CheckoutErr Unit :=
  if cart.isEmpty then .error .emptyCart
  else
    match user with
    | none => .error .notAuthenticated
    | some u =>
      if !u.isAuthenticated then .error .notAuthenticated
      else validateLines tts cart

/-- `TicketType.objects.filter(pk=i).update(sold=...)`. -/
def updateSold (tts : List TicketType) (i : Nat) (s : Nat) : List TicketType :=
  tts.map (fun t => if t.id == i then { t with sold := s } else t)

/-- The per-line loop of `OrderService.create_order_items`: under the
`select_for_update` row lock, re-check `sold + quantity <= capacity`, then
`update(sold=F('sold') + quantity)` (the `tickettype_sold_gte_0` check
constraint fires at that update), and build the `OrderItem`. -/
def processLines (orderId : Nat) (tts : List TicketType) :
    List CartLine → Except CheckoutErr (List OrderItem × Int × List TicketType)
  | [] => .ok ([], 0, tts)
  | l :: ls =>
    match findActiveTicketType tts l.ticketTypeId with
    | none => .error .ticketTypeNotFound
    | some tt =>
      if (tt.capacity : Int) < (tt.sold : Int) + l.quantity then
        .error (.insufficientInventory tt.name)
      else if (tt.sold : Int) + l.quantity < 0 then
        .error .integrityError
      else
        match processLines orderId (updateSold tts tt.id ((tt.sold : Int) + l.quantity).toNat) ls with
        | .error e => .error e
        | .ok (items, total, tts2) =>
          .ok ({ orderId := orderId, eventId := tt.eventId, ticketTypeId := tt.id,
                 name := tt.name, unitPrice := tt.price, quantity := l.quantity,
                 lineTotal := tt.price * l.quantity } :: items,
               tt.price * l.quantity + total, tts2)

/-- OrderService.create_order_items, including the final
`OrderItem.objects.bulk_create` at which the `PositiveIntegerField`
check constraint on `quantity` is enforced. -/
def create_order_items (orderId : Nat) (tts : List TicketType) (cart : List CartLine) :
    Except CheckoutErr (List OrderItem × Int × List TicketType) :=
  match processLines orderId tts cart with
  | .error e => .error e
  | .ok (items, total, tts2) =>
    if items.any (fun it => decide (it.quantity < 0)) then .error .integrityError
    else .ok (items, total, tts2)

/-- Steps 1-3 of `OrderService.checkout`: validation, `Order.objects.create`
(status defaults to `'created'`, total to 0) and `create_order_items`.
Returns (order id, order user id, total, new state). -/
def reservePhase (cart : List CartLine) (user : Option UserRef) (st : DBState) :
    Except CheckoutErr (Nat × Nat × Int × DBState) :=
  match validate_checkout_request st.ticketTypes cart user with
  | .error e => .error e
  | .ok _ =>
    match user with
    | none => .error .notAuthenticated
    | some u =>
      let orderId := st.nextOrderId
      match create_order_items orderId st.ticketTypes cart with
      | .error e => .error e
      | .ok (items, total, tts2) =>
        .ok (orderId, u.id, total,
          { st with
            ticketTypes := tts2
            orders := st.orders ++
              [{ id := orderId, userId := u.id, status := "created", totalAmount := 0 }]
            orderItems := st.orderItems ++ items
            nextOrderId := orderId + 1 })

/-- TicketService.create_tickets_for_order: one `Ticket` per unit of each
item (`for _ in range(item.quantity)`), bulk-created; codes are drawn
consecutively from the fresh-code counter. -/
def create_tickets_for_order (order : Order) (items : List OrderItem) (startCode : Nat) :
    List Ticket :=
  match items with
  | [] => []
  | it :: rest =>
    ((List.range it.quantity.toNat).map (fun j =>
      { orderId := order.id, ticketTypeId := it.ticketTypeId, userId := order.userId,
        eventId := it.eventId, uniqueCode := startCode + j })) ++
    create_tickets_for_order order rest (startCode + it.quantity.toNat)

/-- The body of `OrderService.checkout` (inside the transaction):
reservation, `gateway.charge` (its success bit is a parameter), marking the
order paid and creating the tickets. -/
def checkoutBody (gwSuccess : Bool) (cart : List CartLine) (user : Option UserRef)
    (st : DBState) : Except CheckoutErr (Nat × DBState) :=
  match reservePhase cart user st with
  | .error e => .error e
  | .ok (orderId, uid, total, st1) =>
    if gwSuccess then
      let st2 := { st1 with orders := st1.orders.map (fun (o : Order) =>
        if o.id == orderId then { o with status := "paid", totalAmount := total } else o) }
      let order : Order := { id := orderId, userId := uid, status := "paid", totalAmount := total }
      let items := st2.orderItems.filter (fun (it : OrderItem) => it.orderId == orderId)
      let newTickets := create_tickets_for_order order items st2.nextCode
      .ok (orderId, { st2 with
        tickets := st2.tickets ++ newTickets
        nextCode := st2.nextCode + (items.map (fun it => it.quantity.toNat)).sum })
    else .error .paymentRejected

/-- OrderService.checkout with its `@transaction.atomic` wrapper: when the
body raises, every write of the attempt is rolled back. -/
def checkout (gwSuccess : Bool) (cart : List CartLine) (user : Option UserRef)
    (st : DBState) : Except CheckoutErr Nat × DBState :=
  match checkoutBody gwSuccess cart user st with
  | .ok (orderId, st2) => (.ok orderId, st2)
  | .error e => (.error e, st)

/-- PaymentService.refund_booking: "Por ahora solo marca el estado" — it
only sets the order status to `'refunded'`. -/
def refund_booking (st : DBState) (orderId : Nat) : DBState :=
  { st with orders := st.orders.map (fun o =>
      if o.id == orderId then { o with status := "refunded" } else o) }

/-- HOLD_MINUTES = 10, in seconds (time is modelled in seconds). -/
def HOLD_SECONDS : Nat := 600

/-- orders.views._held_quantities: (total active held quantity, this
session's active held quantity); a hold is active iff `expires_at > now`. -/
def held_quantities (holds : List TicketHold) (ttId : Nat) (sessionKey : String)
    (now : Nat) : Nat × Nat :=
  let qs := holds.filter (fun h => h.ticketTypeId == ttId && decide (now < h.expiresAt))
  ((qs.map (fun h => h.quantity)).sum,
   ((qs.filter (fun h => h.sessionKey == sessionKey)).map (fun h => h.quantity)).sum)

/-- orders.views._effective_available. -/
def effective_available (tt : TicketType) (holds : List TicketHold) (sessionKey : String)
    (now : Nat) : Int :=
  let tm := held_quantities holds tt.id sessionKey now
  let base : Int := max ((tt.capacity : Int) - (tt.sold : Int)) 0
  max (base - ((tm.1 : Int) - (tm.2 : Int))) 0

/-- Key predicate of `TicketHold.objects.update_or_create(ticket_type=...,
session_key=...)`. -/
def holdKeyMatch (ttId : Nat) (sessionKey : String) (h : TicketHold) : Bool :=
  h.ticketTypeId == ttId && h.sessionKey == sessionKey

/-- `TicketHold.objects.update_or_create` keyed on (ticket type, session):
update the matching row's mutable fields (`created_at` is `auto_now_add`,
so it is untouched on update) or insert a fresh row. -/
def upsertHold (holds : List TicketHold) (ttId : Nat) (sessionKey : String)
    (userId : Option Nat) (qty : Nat) (now : Nat) (expiresAt : Nat) : List TicketHold :=
  if holds.any (holdKeyMatch ttId sessionKey) then
    holds.map (fun h => if holdKeyMatch ttId sessionKey h then
      { h with userId := userId, quantity := qty, expiresAt := expiresAt } else h)
  else
    holds ++ [{ ticketTypeId := ttId, userId := userId, sessionKey := sessionKey,
                quantity := qty, createdAt := now, expiresAt := expiresAt }]

/-- The `quantity` POST parameter of `add_to_cart`, before parsing. -/
inductive QtyParam where
  | missing
  | malformed
  | val (n : Int)
deriving DecidableEq, Repr

/-- Quantity parsing in `add_to_cart`: default `'1'`, `int(...)` failures
caught and replaced by 1, then `max(..., 1)`. -/
def parse_quantity : QtyParam → Int
  | .missing => 1
  | .malformed => 1
  | .val n => max n 1

/-- The session cart as stored by the views: ticket-type id to quantity. -/
abbrev SessionCart := List (Nat × Nat)

def cartGet (cart : SessionCart) (ttId : Nat) : Option Nat :=
  (cart.find? (fun p => p.1 == ttId)).map (fun p => p.2)

def cartSet (cart : SessionCart) (ttId : Nat) (q : Nat) : SessionCart :=
  if cart.any (fun p => p.1 == ttId) then
    cart.map (fun p => if p.1 == ttId then (ttId, q) else p)
  else cart ++ [(ttId, q)]

/-- Outcome of a cart view: new session cart, new store, and whether the
"está agotado" (sold out) message was flashed. -/
structure CartActionResult where
  cart : SessionCart
  db : DBState
  soldOutMessage : Bool
deriving DecidableEq, Repr

/-- orders.views.add_to_cart (`none` is the `get_object_or_404` response). -/
def add_to_cart (st : DBState) (cart : SessionCart) (ttId : Nat) (qp : QtyParam)
    (sessionKey : String) (userId : Option Nat) (now : Nat) : Option CartActionResult :=
  match findActiveTicketType st.ticketTypes ttId with
  | none => none
  | some tt =>
    let quantity := parse_quantity qp
    let effectiveAvail := effective_available tt st.holds sessionKey now
    if effectiveAvail ≤ 0 then
      some { cart := cart, db := st, soldOutMessage := true }
    else
      let cart1 :=
        match cartGet cart tt.id with
        | some q =>
          let newQty : Int := (q : Int) + quantity
          let cap : Int := effectiveAvail + (q : Int)
          cartSet cart tt.id (if cap < newQty then cap.toNat else newQty.toNat)
        | none => cartSet cart tt.id (min quantity effectiveAvail).toNat
      let holdQty := (cartGet cart1 tt.id).getD 0
      let holds1 := upsertHold st.holds tt.id sessionKey userId holdQty now (now + HOLD_SECONDS)
      some { cart := cart1, db := { st with holds := holds1 }, soldOutMessage := false }

/-- The `delta` POST parameter of `update_quantity` after its membership
check in `\x7b'+1', '-1'\x7d`. -/
inductive QtyDelta where
  | plusOne
  | minusOne
deriving DecidableEq, Repr

/-- orders.views.update_quantity. -/
def update_quantity (st : DBState) (cart : SessionCart) (ttId : Nat) (delta : QtyDelta)
    (sessionKey : String) (userId : Option Nat) (now : Nat) : Option CartActionResult :=
  match cartGet cart ttId with
  | none => some { cart := cart, db := st, soldOutMessage := false }
  | some q =>
    match findActiveTicketType st.ticketTypes ttId with
    | none => none
    | some tt =>
      let d : Int := match delta with | .plusOne => 1 | .minusOne => -1
      let newQty : Int := (q : Int) + d
      if newQty < 1 then
        some { cart := cart.filter (fun p => !(p.1 == ttId)),
               db := { st with holds := st.holds.filter (fun h => !(holdKeyMatch ttId sessionKey h)) },
               soldOutMessage := false }
      else
        let eff := effective_available tt st.holds sessionKey now
        let cap : Int := eff + (q : Int)
        let finalQty := if cap < newQty then cap else newQty
        let holds1 := upsertHold st.holds tt.id sessionKey userId finalQty.toNat now (now + HOLD_SECONDS)
        some { cart := cartSet cart ttId finalQty.toNat,
               db := { st with holds := holds1 },
               soldOutMessage := false }

/-- orders.views.remove_from_cart. -/
def remove_from_cart (st : DBState) (cart : SessionCart) (ttId : Nat)
    (sessionKey : String) : CartActionResult :=
  if cart.any (fun p => p.1 == ttId) then
    { cart := cart.filter (fun p => !(p.1 == ttId)),
      db := { st with holds := st.holds.filter (fun h => !(holdKeyMatch ttId sessionKey h)) },
      soldOutMessage := false }
  else { cart := cart, db := st, soldOutMessage := false }

/-- orders.views.checkout_view POST: run the checkout; on success clear the
session's holds (`TicketHold.objects.filter(session_key=...).delete()`). -/
def checkout_view_post (gwSuccess : Bool) (cart : List CartLine) (user : Option UserRef)
    (sessionKey : String) (st : DBState) : Except CheckoutErr Nat × DBState :=
  match checkout gwSuccess cart user st with
  | (.ok orderId, st2) =>
    (.ok orderId, { st2 with holds := st2.holds.filter (fun h => !(h.sessionKey == sessionKey)) })
  | (.error e, st2) => (.error e, st2)

/-- One checkout attempt of a schedule. -/
structure CheckoutReq where
  gwSuccess : Bool
  cart : List CartLine
  user : Option UserRef
deriving DecidableEq, Repr

/-- Serialized execution of checkout attempts: `select_for_update` together
with `transaction.atomic` forces concurrent checkouts touching a common
ticket type to serialize, so any interleaving is equivalent to some order. -/
def runSchedule (st : DBState) : List CheckoutReq → DBState
  | [] => st
  | r :: rs => runSchedule (checkout r.gwSuccess r.cart r.user st).2 rs

/-- Tickets ever issued for one ticket type (tickets are never deleted). -/
def ticketCount (st : DBState) (ttId : Nat) : Nat :=
  st.tickets.countP (fun t => t.ticketTypeId == ttId)

/-- The ledger invariant of the spec: `0 <= sold <= capacity` (the lower
bound is inherent in the `Nat` field). -/
def SoldInv (tts : List TicketType) : Prop :=
  ∀ tt ∈ tts, tt.sold ≤ tt.capacity

/-- Primary-key uniqueness of ticket-type rows. -/
def IdsNodup (tts : List TicketType) : Prop :=
  (tts.map (fun tt => tt.id)).Nodup

/-- Global invariant carried through schedules: unique ticket-type ids,
order-item ids below the fresh-id counter, and per ticket type
tickets-issued bounded by `sold` bounded by `capacity`. -/
def CheckoutInv (st : DBState) : Prop :=
  IdsNodup st.ticketTypes ∧
  (∀ it ∈ st.orderItems, it.orderId < st.nextOrderId) ∧
  (∀ tt ∈ st.ticketTypes, ticketCount st tt.id ≤ tt.sold ∧ tt.sold ≤ tt.capacity)

/-- Sum of the cart quantities referring to one ticket type. -/
def cartSumFor (cart : List CartLine) (ttId : Nat) : Int :=
  ((cart.filter (fun l => l.ticketTypeId == ttId)).map (fun l => l.quantity)).sum

/-- The ledger after a successful reservation: every row's `sold` grows by
the cart's total quantity for it. -/
def soldAfter (tts : List TicketType) (cart : List CartLine) : List TicketType :=
  tts.map (fun tt => { tt with sold := ((tt.sold : Int) + cartSumFor cart tt.id).toNat })

/-- The order items a successful reservation appends: price and name
snapshots taken from the ticket-type rows as they stood at entry. -/
def itemsSpec (orderId : Nat) (tts : List TicketType) :
    List CartLine → Option (List OrderItem)
  | [] => some []
  | l :: ls =>
    match findActiveTicketType tts l.ticketTypeId with
    | none => none
    | some tt =>
      (itemsSpec orderId tts ls).map (fun rest =>
        { orderId := orderId, eventId := tt.eventId, ticketTypeId := tt.id, name := tt.name,
          unitPrice := tt.price, quantity := l.quantity,
          lineTotal := tt.price * l.quantity } :: rest)

/-- At most one hold row per (ticket type, owner) pair. -/
def atMostOnePerKey (holds : List TicketHold) : Prop :=
  ∀ ttId sk, holds.countP (holdKeyMatch ttId sk) ≤ 1

/-- Validation predicate following the spec text for claim C5 ("cart
non-empty; owner identified; each line references an active ticket type
with quantity > 0"), for comparison with the code's validator. -/
def specCartValid (tts : List TicketType) (cart : List CartLine)
    (user : Option UserRef) : Bool :=
  !cart.isEmpty &&
  (match user with | some u => u.isAuthenticated | none => false) &&
  cart.all (fun l => (findActiveTicketType tts l.ticketTypeId).isSome && decide (0 < l.quantity))

/-! Concrete fixture rows and states, used by witness theorems and
counterexamples. -/

def emptyDB : DBState :=
  { ticketTypes := [], holds := [], orders := [], orderItems := [], tickets := [],
    nextOrderId := 0, nextCode := 0 }

def genTT : TicketType :=
  { id := 1, eventId := 10, name := "General", price := 50, capacity := 5, sold := 0,
    active := true }

def capOneTT : TicketType :=
  { id := 1, eventId := 10, name := "General", price := 50, capacity := 1, sold := 0,
    active := true }

def vipOffTT : TicketType :=
  { id := 2, eventId := 10, name := "VIP", price := 90, capacity := 5, sold := 0,
    active := false }

def baseDB : DBState := { emptyDB with ticketTypes := [genTT, vipOffTT] }

def raceDB : DBState := { emptyDB with ticketTypes := [capOneTT] }

def aliceUser : UserRef := { id := 1, isAuthenticated := true }

def bobUser : UserRef := { id := 2, isAuthenticated := true }

def holdA : TicketHold :=
  { ticketTypeId := 1, userId := none, sessionKey := "a", quantity := 2, createdAt := 0,
    expiresAt := 100 }

def oneLineCart (q : Int) : List CartLine := [{ ticketTypeId := 1, quantity := q }]

def refundDB : DBState :=
  { emptyDB with
    ticketTypes := [{ genTT with sold := 1 }]
    orders := [{ id := 0, userId := 1, status := "paid", totalAmount := 50 }] }

/-! ### Generic list lemmas -/

theorem sum_map_filter_le {α : Type} (p : α → Bool) (f : α → Nat) (l : List α) :
    ((l.filter p).map f).sum ≤ (l.map f).sum := by
  induction l with
  | nil => simp
  | cons a l ih =>
    by_cases h : p a
    · simp only [List.filter_cons, h, if_true, List.map_cons, List.sum_cons]
      omega
    · simp only [List.filter_cons, h, if_false, List.map_cons, List.sum_cons, Bool.false_eq_true]
      omega

/-! ### Claim C4: shopper-visible effective availability -/

theorem mine_le_total (holds : List TicketHold) (ttId : Nat) (sk : String) (now : Nat) :
    (held_quantities holds ttId sk now).2 ≤ (held_quantities holds ttId sk now).1 :=
  sum_map_filter_le _ _ _

/-- C4: for every ticket type, owner key and time, the shopper-visible
availability computed by `orders.views._effective_available` equals
`max(capacity - sold - (totalActiveHoldQty - ownerActiveHoldQty), 0)` with a
hold active iff `expires_at > now`; it is never negative, and an owner's own
active hold does not reduce their own perceived availability. -/
theorem effective_available_spec (tt : TicketType) (holds : List TicketHold)
    (sk : String) (now : Nat) :
    (effective_available tt holds sk now =
      max ((tt.capacity : Int) - (tt.sold : Int) -
        (((held_quantities holds tt.id sk now).1 : Int) -
         ((held_quantities holds tt.id sk now).2 : Int))) 0) ∧
    0 ≤ effective_available tt holds sk now ∧
    (∀ h : TicketHold, h.ticketTypeId = tt.id → h.sessionKey = sk →
      effective_available tt (h :: holds) sk now = effective_available tt holds sk now) := by
  refine ⟨?_, ?_, ?_⟩
  · have hmt := mine_le_total holds tt.id sk now
    unfold effective_available
    simp only [max_def]
    split_ifs <;> omega
  · unfold effective_available
    exact le_max_right _ _
  · intro h hid hsk
    simp only [effective_available, held_quantities]
    by_cases hact : now < h.expiresAt
    · rw [List.filter_cons_of_pos (by simp [hid, hact]),
        List.filter_cons_of_pos (by simp [hsk])]
      simp only [List.map_cons, List.sum_cons]
      congr 1
      push_cast
      ring
    · rw [List.filter_cons_of_neg (by simp [hact])]

/-- Witness for C4 at a concrete ticket type, hold list and owner. -/
theorem effective_available_spec_witness :
    effective_available genTT (holdA :: []) "a" 0 = effective_available genTT [] "a" 0 :=
  (effective_available_spec genTT [] "a" 0).2.2 holdA rfl rfl

/-! ### Claim C5: what checkout validation actually rejects -/

theorem validateLines_ok_iff (tts : List TicketType) (cart : List CartLine) :
    validateLines tts cart = .ok () ↔
      ∀ l ∈ cart, check_availability tts l.ticketTypeId l.quantity = true := by
  induction cart with
  | nil => simp [validateLines]
  | cons l ls ih =>
    by_cases h : check_availability tts l.ticketTypeId l.quantity
    · simp [validateLines, h, ih]
    · simp only [validateLines, h, if_false, Bool.false_eq_true]
      constructor
      · intro hc
        cases hc
      · intro hall
        exact absurd (hall l (by simp)) (by simp [h])

/-- C5 counterexample: the claim says validation rejects exactly the carts
violating (non-empty, authenticated owner, every line an active ticket type
with quantity > 0).  A cart whose only line has quantity 0, and a cart whose
only line references an inactive ticket type, both violate those conditions
yet are accepted by `OrderService.validate_checkout_request`. -/
theorem validate_checkout_request_counterexample :
    validate_checkout_request baseDB.ticketTypes (oneLineCart 0) (some aliceUser) = .ok () ∧
    specCartValid baseDB.ticketTypes (oneLineCart 0) (some aliceUser) = false ∧
    validate_checkout_request baseDB.ticketTypes
      [{ ticketTypeId := 2, quantity := 3 }] (some aliceUser) = .ok () ∧
    specCartValid baseDB.ticketTypes
      [{ ticketTypeId := 2, quantity := 3 }] (some aliceUser) = false := by
  exact ⟨rfl, by decide, rfl, by decide⟩

/-- C5 (amended): `OrderService.validate_checkout_request` accepts a cart
iff the cart is non-empty, the user is authenticated, and every line's
ticket type id exists with `quantity ≤ max(capacity - sold, 0)` (the
repository's `check_availability`); the active flag and positivity of the
quantity are not checked at this step. -/
theorem validate_checkout_request_ok_iff (tts : List TicketType) (cart : List CartLine)
    (user : Option UserRef) :
    validate_checkout_request tts cart user = .ok () ↔
      (cart ≠ [] ∧ (∃ u, user = some u ∧ u.isAuthenticated = true) ∧
       ∀ l ∈ cart, check_availability tts l.ticketTypeId l.quantity = true) := by
  unfold validate_checkout_request
  by_cases hemp : cart.isEmpty
  · rw [List.isEmpty_iff] at hemp
    simp [hemp]
  · have hne : cart ≠ [] := by
      intro hc
      rw [hc] at hemp
      exact hemp rfl
    rw [if_neg (by simpa using hemp)]
    cases user with
    | none => simp
    | some u =>
      by_cases hauth : u.isAuthenticated
      · simp [hauth, validateLines_ok_iff, hne]
      · simp [hauth]

/-- Witness for the amended C5 characterization at a concrete accepted cart. -/
theorem validate_checkout_request_ok_iff_witness :
    validate_checkout_request baseDB.ticketTypes (oneLineCart 2) (some aliceUser) = .ok () :=
  (validate_checkout_request_ok_iff baseDB.ticketTypes (oneLineCart 2) (some aliceUser)).mpr
    ⟨by decide, ⟨aliceUser, rfl, rfl⟩, by decide⟩

/-! ### Claim C7: refund does not release the ledger -/

/-- C7: the claim (and the spec's `release` compensation) says refunding an
order decrements `sold` by the refunded quantity.  The code's
`PaymentService.refund_booking` is an acknowledged placeholder that only
sets the status: on a paid one-unit order it leaves `sold = 1` and changes
nothing else. -/
theorem refund_booking_leaves_sold :
    (refund_booking refundDB 0).ticketTypes = refundDB.ticketTypes ∧
    (refund_booking refundDB 0).ticketTypes.map (fun tt => tt.sold) = [1] ∧
    (refund_booking refundDB 0).orders.map (fun o => o.status) = ["refunded"] :=
  ⟨rfl, rfl, rfl⟩

/-! ### Claim C8: hold upsert keyed on (ticket type, owner) -/

theorem countP_map_of_preserve {α : Type} (p : α → Bool) (f : α → α) (l : List α)
    (hf : ∀ a, p (f a) = p a) : (l.map f).countP p = l.countP p := by
  induction l with
  | nil => rfl
  | cons a l ih => simp [List.countP_cons, hf, ih]

theorem countP_filter_le {α : Type} (p q : α → Bool) (l : List α) :
    (l.filter q).countP p ≤ l.countP p := by
  induction l with
  | nil => simp
  | cons a l ih =>
    by_cases hq : q a
    · simp only [List.filter_cons, hq, if_true, List.countP_cons]
      omega
    · simp only [List.filter_cons, hq, if_false, Bool.false_eq_true, List.countP_cons]
      omega

theorem upsertHold_update_preserves_key (ttId : Nat) (sk : String) (uid : Option Nat)
    (q e : Nat) (ttId' : Nat) (sk' : String) (a : TicketHold) :
    holdKeyMatch ttId' sk' (if holdKeyMatch ttId sk a then
      { a with userId := uid, quantity := q, expiresAt := e } else a) =
    holdKeyMatch ttId' sk' a := by
  by_cases hm : holdKeyMatch ttId sk a
  · rw [if_pos hm]
    rfl
  · rw [if_neg hm]

theorem countP_upsertHold (holds : List TicketHold) (ttId : Nat) (sk : String)
    (uid : Option Nat) (q n e : Nat) (ttId' : Nat) (sk' : String) :
    (upsertHold holds ttId sk uid q n e).countP (holdKeyMatch ttId' sk') =
      if holds.any (holdKeyMatch ttId sk) then holds.countP (holdKeyMatch ttId' sk')
      else holds.countP (holdKeyMatch ttId' sk') +
        (if ttId == ttId' && sk == sk' then 1 else 0) := by
  unfold upsertHold
  by_cases hany : holds.any (holdKeyMatch ttId sk)
  · rw [if_pos hany, if_pos hany]
    exact countP_map_of_preserve _ _ _ (upsertHold_update_preserves_key ttId sk uid q e ttId' sk')
  · rw [if_neg hany, if_neg hany, List.countP_append]
    congr 1
    have hnew : holdKeyMatch ttId' sk'
        { ticketTypeId := ttId, userId := uid, sessionKey := sk, quantity := q,
          createdAt := n, expiresAt := e } = (ttId == ttId' && sk == sk') := rfl
    by_cases hsame : (ttId == ttId' && sk == sk') = true
    · rw [if_pos hsame]
      simp [List.countP_cons, hnew, hsame]
    · rw [if_neg hsame]
      simp [List.countP_cons, hnew, Bool.eq_false_iff.mpr hsame]

theorem atMostOnePerKey_upsertHold (holds : List TicketHold) (ttId : Nat) (sk : String)
    (uid : Option Nat) (q n e : Nat) (h1 : atMostOnePerKey holds) :
    atMostOnePerKey (upsertHold holds ttId sk uid q n e) := by
  intro ttId' sk'
  rw [countP_upsertHold]
  by_cases hany : holds.any (holdKeyMatch ttId sk)
  · rw [if_pos hany]
    exact h1 ttId' sk'
  · rw [if_neg hany]
    by_cases hsame : (ttId == ttId' && sk == sk') = true
    · rw [if_pos hsame]
      simp only [Bool.and_eq_true, beq_iff_eq] at hsame
      obtain ⟨hta, hsa⟩ := hsame
      subst hta
      subst hsa
      have hzero : holds.countP (holdKeyMatch ttId sk) = 0 := by
        rw [List.countP_eq_zero]
        intro a ha hpa
        exact absurd (List.any_eq_true.mpr ⟨a, ha, hpa⟩) hany
      omega
    · rw [if_neg hsame]
      have := h1 ttId' sk'
      omega

theorem countP_one_upsertHold_self (holds : List TicketHold) (ttId : Nat) (sk : String)
    (uid : Option Nat) (q n e : Nat) (h1 : holds.countP (holdKeyMatch ttId sk) ≤ 1) :
    (upsertHold holds ttId sk uid q n e).countP (holdKeyMatch ttId sk) = 1 := by
  rw [countP_upsertHold]
  by_cases hany : holds.any (holdKeyMatch ttId sk)
  · rw [if_pos hany]
    rw [List.any_eq_true] at hany
    obtain ⟨a, ha, hpa⟩ := hany
    have : 0 < holds.countP (holdKeyMatch ttId sk) :=
      List.countP_pos_iff.mpr ⟨a, ha, hpa⟩
    omega
  · rw [if_neg hany, if_pos (by simp)]
    have hzero : holds.countP (holdKeyMatch ttId sk) = 0 := by
      rw [List.countP_eq_zero]
      intro a ha hpa
      exact absurd (List.any_eq_true.mpr ⟨a, ha, hpa⟩) hany
    omega

theorem upsertHold_mem_key (holds : List TicketHold) (ttId : Nat) (sk : String)
    (uid : Option Nat) (q n e : Nat) (hany : holds.any (holdKeyMatch ttId sk))
    (h : TicketHold) (hmem : h ∈ upsertHold holds ttId sk uid q n e)
    (hkey : holdKeyMatch ttId sk h = true) :
    h.quantity = q ∧ h.expiresAt = e := by
  unfold upsertHold at hmem
  rw [if_pos hany] at hmem
  rw [List.mem_map] at hmem
  obtain ⟨b, _, hb⟩ := hmem
  by_cases hm : holdKeyMatch ttId sk b
  · rw [if_pos hm] at hb
    rw [← hb]
    exact ⟨rfl, rfl⟩
  · rw [if_neg hm] at hb
    rw [← hb] at hkey
    exact absurd hkey (by simpa using hm)

/-- C8: `TicketHold.objects.update_or_create` keyed on (ticket type,
session) is idempotent: two consecutive upserts of the same quantity leave
exactly one hold row for the pair, carrying that quantity and the second
(refreshed) expiry; moreover upserts and hold deletions preserve the
at-most-one-live-hold-per-pair invariant. -/
theorem upsertHold_idempotent (holds : List TicketHold) (ttId : Nat) (sk : String)
    (uid : Option Nat) (q n1 e1 n2 e2 : Nat) (h1 : atMostOnePerKey holds) :
    ((upsertHold (upsertHold holds ttId sk uid q n1 e1) ttId sk uid q n2 e2).countP
        (holdKeyMatch ttId sk) = 1 ∧
      ∀ h ∈ upsertHold (upsertHold holds ttId sk uid q n1 e1) ttId sk uid q n2 e2,
        holdKeyMatch ttId sk h = true → h.quantity = q ∧ h.expiresAt = e2) ∧
    (∀ (ttId' : Nat) (sk' : String) (uid' : Option Nat) (q' n' e' : Nat),
      atMostOnePerKey (upsertHold holds ttId' sk' uid' q' n' e')) ∧
    (∀ p : TicketHold → Bool, atMostOnePerKey (holds.filter p)) := by
  have hone : (upsertHold holds ttId sk uid q n1 e1).countP (holdKeyMatch ttId sk) = 1 :=
    countP_one_upsertHold_self holds ttId sk uid q n1 e1 (h1 ttId sk)
  have hany1 : (upsertHold holds ttId sk uid q n1 e1).any (holdKeyMatch ttId sk) := by
    rw [List.any_eq_true]
    have : 0 < (upsertHold holds ttId sk uid q n1 e1).countP (holdKeyMatch ttId sk) := by
      omega
    obtain ⟨a, ha, hpa⟩ := List.countP_pos_iff.mp this
    exact ⟨a, ha, hpa⟩
  refine ⟨⟨?_, ?_⟩, ?_, ?_⟩
  · exact countP_one_upsertHold_self _ ttId sk uid q n2 e2 (by omega)
  · exact upsertHold_mem_key _ ttId sk uid q n2 e2 hany1
  · intro ttId' sk' uid' q' n' e'
    exact atMostOnePerKey_upsertHold holds ttId' sk' uid' q' n' e' h1
  · intro p ttId' sk'
    exact le_trans (countP_filter_le _ p holds) (h1 ttId' sk')

/-- Witness for C8 at a concrete double upsert starting from no holds. -/
theorem upsertHold_idempotent_witness :
    (upsertHold (upsertHold [] 1 "a" none 2 0 600) 1 "a" none 2 5 605).countP
      (holdKeyMatch 1 "a") = 1 :=
  (upsertHold_idempotent [] 1 "a" none 2 0 600 5 605 (fun ttId sk => by simp)).1.1

/-! ### Structure of the reservation loop (`OrderService.create_order_items`) -/

theorem mem_unique_of_idsNodup (tts : List TicketType) (h : IdsNodup tts)
    (t1 t2 : TicketType) (h1 : t1 ∈ tts) (h2 : t2 ∈ tts) (hid : t1.id = t2.id) :
    t1 = t2 := by
  induction tts with
  | nil => cases h1
  | cons a rest ih =>
    unfold IdsNodup at h
    rw [List.map_cons, List.nodup_cons] at h
    obtain ⟨hna, hrest⟩ := h
    cases h1 with
    | head =>
      cases h2 with
      | head => rfl
      | tail _ h2t => exact absurd (hid ▸ List.mem_map_of_mem _ h2t) hna
    | tail _ h1t =>
      cases h2 with
      | head => exact absurd (hid ▸ List.mem_map_of_mem _ h1t) hna
      | tail _ h2t => exact ih hrest h1t h2t

theorem find?_map_comm {α : Type} (p : α → Bool) (f : α → α) (l : List α)
    (hpf : ∀ a, p (f a) = p a) : (l.map f).find? p = (l.find? p).map f := by
  induction l with
  | nil => rfl
  | cons a rest ih =>
    by_cases h : p a
    · rw [List.map_cons, List.find?_cons_of_pos _ ((hpf a).trans h),
        List.find?_cons_of_pos _ h]
      rfl
    · rw [List.map_cons, List.find?_cons_of_neg _ (by rw [hpf a]; simpa using h),
        List.find?_cons_of_neg _ (by simpa using h), ih]

theorem findActive_facts {tts : List TicketType} {i : Nat} {tt : TicketType}
    (h : findActiveTicketType tts i = some tt) :
    tt ∈ tts ∧ tt.id = i ∧ tt.active = true := by
  unfold findActiveTicketType at h
  have hm := List.mem_of_find?_eq_some h
  have hp := List.find?_some h
  simp only [Bool.and_eq_true, beq_iff_eq] at hp
  exact ⟨hm, hp.1, hp.2⟩

theorem updateSold_proj {β : Type} (f : TicketType → β)
    (hf : ∀ t s, f { t with sold := s } = f t) (tts : List TicketType) (i s : Nat) :
    (updateSold tts i s).map f = tts.map f := by
  unfold updateSold
  rw [List.map_map]
  apply List.map_congr_left
  intro t _
  simp only [Function.comp_apply]
  by_cases h : t.id == i
  · rw [if_pos h, hf]
  · rw [if_neg h]

theorem idsNodup_updateSold {tts : List TicketType} (i s : Nat) (h : IdsNodup tts) :
    IdsNodup (updateSold tts i s) := by
  unfold IdsNodup
  rw [updateSold_proj (fun t => t.id) (fun t s => rfl)]
  exact h

theorem findActive_updateSold (tts : List TicketType) (i s j : Nat) :
    findActiveTicketType (updateSold tts i s) j =
      (findActiveTicketType tts j).map
        (fun t => if t.id == i then { t with sold := s } else t) := by
  unfold findActiveTicketType updateSold
  apply find?_map_comm
  intro a
  by_cases h : a.id == i
  · rw [if_pos h]
  · rw [if_neg h]

theorem itemsSpec_updateSold (oid : Nat) (tts : List TicketType) (i s : Nat)
    (cart : List CartLine) :
    itemsSpec oid (updateSold tts i s) cart = itemsSpec oid tts cart := by
  induction cart with
  | nil => rfl
  | cons l ls ih =>
    simp only [itemsSpec, findActive_updateSold]
    cases hfind : findActiveTicketType tts l.ticketTypeId with
    | none => rfl
    | some tt =>
      simp only [Option.map_some']
      rw [ih]
      congr 1
      funext rest
      by_cases hti : tt.id == i
      · rw [if_pos hti]
      · rw [if_neg hti]

theorem cartSumFor_cons_self (l : CartLine) (ls : List CartLine) :
    cartSumFor (l :: ls) l.ticketTypeId = l.quantity + cartSumFor ls l.ticketTypeId := by
  unfold cartSumFor
  rw [List.filter_cons_of_pos (by simp)]
  simp

theorem cartSumFor_cons_other (l : CartLine) (ls : List CartLine) (i : Nat)
    (h : l.ticketTypeId ≠ i) :
    cartSumFor (l :: ls) i = cartSumFor ls i := by
  unfold cartSumFor
  rw [List.filter_cons_of_neg (by simpa using h)]

theorem soldAfter_nil (tts : List TicketType) : soldAfter tts [] = tts := by
  unfold soldAfter
  have hfix : ∀ t ∈ tts,
      ({ t with sold := ((t.sold : Int) + cartSumFor [] t.id).toNat } : TicketType) = t := by
    intro t _
    have hv : ((t.sold : Int) + cartSumFor [] t.id).toNat = t.sold := by
      simp [cartSumFor]
    rw [hv]
  rw [List.map_congr_left hfix]
  exact List.map_id tts

theorem soldAfter_step (tts : List TicketType) (l : CartLine) (ls : List CartLine)
    (tt : TicketType) (hnodup : IdsNodup tts)
    (hfind : findActiveTicketType tts l.ticketTypeId = some tt)
    (hneg : ¬((tt.sold : Int) + l.quantity < 0)) :
    soldAfter (updateSold tts tt.id ((tt.sold : Int) + l.quantity).toNat) ls =
      soldAfter tts (l :: ls) := by
  obtain ⟨hmem, hid, hact⟩ := findActive_facts hfind
  unfold soldAfter updateSold
  rw [List.map_map]
  apply List.map_congr_left
  intro t ht
  simp only [Function.comp_apply]
  by_cases hti : t.id == tt.id
  · have hteq : tt = t :=
      (mem_unique_of_idsNodup tts hnodup t tt ht hmem (by simpa using hti)).symm
    subst hteq
    rw [if_pos hti]
    have hsum : cartSumFor (l :: ls) tt.id = l.quantity + cartSumFor ls tt.id := by
      rw [hid]
      exact cartSumFor_cons_self l ls
    have hval : ((((tt.sold : Int) + l.quantity).toNat : Int) + cartSumFor ls tt.id).toNat
        = ((tt.sold : Int) + cartSumFor (l :: ls) tt.id).toNat := by
      rw [hsum]
      omega
    exact congrArg (fun s => ({ tt with sold := s } : TicketType)) hval
  · rw [if_neg hti]
    have hsum : cartSumFor ls t.id = cartSumFor (l :: ls) t.id := by
      symm
      apply cartSumFor_cons_other
      intro hc
      apply hti
      simp only [beq_iff_eq]
      exact (hid.trans hc).symm
    have hval : ((t.sold : Int) + cartSumFor ls t.id).toNat
        = ((t.sold : Int) + cartSumFor (l :: ls) t.id).toNat := by
      rw [hsum]
    exact congrArg (fun s => ({ t with sold := s } : TicketType)) hval

theorem processLines_ok_ticketTypes (oid : Nat) (cart : List CartLine) :
    ∀ (tts : List TicketType) (items : List OrderItem) (total : Int)
      (tts2 : List TicketType), IdsNodup tts →
      processLines oid tts cart = .ok (items, total, tts2) →
      tts2 = soldAfter tts cart := by
  induction cart with
  | nil =>
    intro tts items total tts2 _ h
    unfold processLines at h
    injection h with h
    injection h with h1 h
    injection h with h2 h3
    rw [← h3, soldAfter_nil]
  | cons l ls ih =>
    intro tts items total tts2 hnodup h
    cases hfind : findActiveTicketType tts l.ticketTypeId with
    | none =>
      simp only [processLines, hfind] at h
      cases h
    | some tt =>
      simp only [processLines, hfind] at h
      by_cases hcap : (tt.capacity : Int) < (tt.sold : Int) + l.quantity
      · rw [if_pos hcap] at h
        cases h
      · rw [if_neg hcap] at h
        by_cases hneg : (tt.sold : Int) + l.quantity < 0
        · rw [if_pos hneg] at h
          cases h
        · rw [if_neg hneg] at h
          cases hrec : processLines oid
              (updateSold tts tt.id ((tt.sold : Int) + l.quantity).toNat) ls with
          | error e =>
            simp only [hrec] at h
            cases h
          | ok val =>
            obtain ⟨items1, total1, tts21⟩ := val
            simp only [hrec] at h
            injection h with h
            injection h with h1 h
            injection h with h2 h3
            have hrec2 := ih (updateSold tts tt.id ((tt.sold : Int) + l.quantity).toNat)
              items1 total1 tts21
              (idsNodup_updateSold _ _ hnodup) hrec
            rw [← h3, hrec2]
            exact soldAfter_step tts l ls tt hnodup hfind hneg

theorem processLines_ok_items (oid : Nat) (cart : List CartLine) :
    ∀ (tts : List TicketType) (items : List OrderItem) (total : Int)
      (tts2 : List TicketType),
      processLines oid tts cart = .ok (items, total, tts2) →
      itemsSpec oid tts cart = some items := by
  induction cart with
  | nil =>
    intro tts items total tts2 h
    unfold processLines at h
    injection h with h
    injection h with h1 h
    rw [← h1]
    rfl
  | cons l ls ih =>
    intro tts items total tts2 h
    cases hfind : findActiveTicketType tts l.ticketTypeId with
    | none =>
      simp only [processLines, hfind] at h
      cases h
    | some tt =>
      simp only [processLines, hfind] at h
      by_cases hcap : (tt.capacity : Int) < (tt.sold : Int) + l.quantity
      · rw [if_pos hcap] at h
        cases h
      · rw [if_neg hcap] at h
        by_cases hneg : (tt.sold : Int) + l.quantity < 0
        · rw [if_pos hneg] at h
          cases h
        · rw [if_neg hneg] at h
          cases hrec : processLines oid
              (updateSold tts tt.id ((tt.sold : Int) + l.quantity).toNat) ls with
          | error e =>
            simp only [hrec] at h
            cases h
          | ok val =>
            obtain ⟨items1, total1, tts21⟩ := val
            simp only [hrec] at h
            injection h with h
            injection h with h1 h
            have hspec := ih _ items1 total1 tts21 hrec
            rw [itemsSpec_updateSold] at hspec
            simp only [itemsSpec, hfind, hspec, Option.map_some']
            rw [← h1]

theorem processLines_ok_soldInv (oid : Nat) (cart : List CartLine) :
    ∀ (tts : List TicketType) (items : List OrderItem) (total : Int)
      (tts2 : List TicketType), IdsNodup tts → SoldInv tts →
      processLines oid tts cart = .ok (items, total, tts2) →
      SoldInv tts2 := by
  induction cart with
  | nil =>
    intro tts items total tts2 _ hinv h
    unfold processLines at h
    injection h with h
    injection h with h1 h
    injection h with h2 h3
    rw [← h3]
    exact hinv
  | cons l ls ih =>
    intro tts items total tts2 hnodup hinv h
    cases hfind : findActiveTicketType tts l.ticketTypeId with
    | none =>
      simp only [processLines, hfind] at h
      cases h
    | some tt =>
      simp only [processLines, hfind] at h
      by_cases hcap : (tt.capacity : Int) < (tt.sold : Int) + l.quantity
      · rw [if_pos hcap] at h
        cases h
      · rw [if_neg hcap] at h
        by_cases hneg : (tt.sold : Int) + l.quantity < 0
        · rw [if_pos hneg] at h
          cases h
        · rw [if_neg hneg] at h
          cases hrec : processLines oid
              (updateSold tts tt.id ((tt.sold : Int) + l.quantity).toNat) ls with
          | error e =>
            simp only [hrec] at h
            cases h
          | ok val =>
            obtain ⟨items1, total1, tts21⟩ := val
            simp only [hrec] at h
            injection h with h
            injection h with h1 h
            injection h with h2 h3
            have hinv2 : SoldInv (updateSold tts tt.id ((tt.sold : Int) + l.quantity).toNat) := by
              intro t ht
              unfold updateSold at ht
              rw [List.mem_map] at ht
              obtain ⟨t0, ht0, heq⟩ := ht
              by_cases hti : t0.id == tt.id
              · rw [if_pos hti] at heq
                rw [← heq]
                obtain ⟨hmem, _, _⟩ := findActive_facts hfind
                have ht0tt : t0 = tt :=
                  mem_unique_of_idsNodup tts hnodup t0 tt ht0 hmem (by simpa using hti)
                subst ht0tt
                show ((t0.sold : Int) + l.quantity).toNat ≤ t0.capacity
                omega
              · rw [if_neg hti] at heq
                rw [← heq]
                exact hinv t0 ht0
            rw [← h3]
            exact ih _ items1 total1 tts21 (idsNodup_updateSold _ _ hnodup) hinv2 hrec

theorem itemsSpec_fields (oid : Nat) (cart : List CartLine) :
    ∀ (tts : List TicketType) (items : List OrderItem),
      itemsSpec oid tts cart = some items →
      List.Forall₂ (fun (l : CartLine) (it : OrderItem) =>
        it.orderId = oid ∧ it.ticketTypeId = l.ticketTypeId ∧ it.quantity = l.quantity)
        cart items := by
  induction cart with
  | nil =>
    intro tts items h
    injection h with h
    rw [← h]
    exact List.Forall₂.nil
  | cons l ls ih =>
    intro tts items h
    cases hfind : findActiveTicketType tts l.ticketTypeId with
    | none =>
      simp only [itemsSpec, hfind] at h
      cases h
    | some tt =>
      simp only [itemsSpec, hfind] at h
      cases hspec : itemsSpec oid tts ls with
      | none =>
        rw [hspec] at h
        simp at h
      | some rest =>
        rw [hspec] at h
        simp only [Option.map_some'] at h
        injection h with h
        rw [← h]
        refine List.Forall₂.cons ⟨rfl, ?_, rfl⟩ (ih tts rest hspec)
        exact (findActive_facts hfind).2.1

theorem forall₂_items_sum (oid : Nat) (i : Nat) :
    ∀ (cart : List CartLine) (items : List OrderItem),
      List.Forall₂ (fun (l : CartLine) (it : OrderItem) =>
        it.orderId = oid ∧ it.ticketTypeId = l.ticketTypeId ∧ it.quantity = l.quantity)
        cart items →
      ((items.filter (fun it => it.ticketTypeId == i)).map (fun it => it.quantity)).sum =
        cartSumFor cart i := by
  intro cart items h
  induction h with
  | nil => rfl
  | @cons l it ls its hli _ ihh =>
    obtain ⟨_, hti, hq⟩ := hli
    by_cases hmatch : l.ticketTypeId = i
    · rw [List.filter_cons_of_pos (by simp [hti, hmatch])]
      rw [List.map_cons, List.sum_cons, ihh]
      unfold cartSumFor
      rw [List.filter_cons_of_pos (by simp [hmatch])]
      rw [List.map_cons, List.sum_cons, hq]
    · rw [List.filter_cons_of_neg (by simp [hti, hmatch])]
      rw [ihh]
      unfold cartSumFor
      rw [List.filter_cons_of_neg (by simp [hmatch])]

theorem forall₂_items_orderId (oid : Nat) (cart : List CartLine) (items : List OrderItem)
    (h : List.Forall₂ (fun (l : CartLine) (it : OrderItem) =>
        it.orderId = oid ∧ it.ticketTypeId = l.ticketTypeId ∧ it.quantity = l.quantity)
        cart items) :
    ∀ it ∈ items, it.orderId = oid := by
  induction h with
  | nil => intro it hit; cases hit
  | cons hli _ ihh =>
    intro it hit
    cases hit with
    | head => exact hli.1
    | tail _ hit2 => exact ihh it hit2

theorem create_order_items_ok (oid : Nat) (tts : List TicketType) (cart : List CartLine)
    (items : List OrderItem) (total : Int) (tts2 : List TicketType)
    (h : create_order_items oid tts cart = .ok (items, total, tts2)) :
    processLines oid tts cart = .ok (items, total, tts2) ∧ ∀ it ∈ items, 0 ≤ it.quantity := by
  unfold create_order_items at h
  cases hp : processLines oid tts cart with
  | error e =>
    simp only [hp] at h
    cases h
  | ok val =>
    obtain ⟨items1, total1, tts21⟩ := val
    simp only [hp] at h
    by_cases hneg : items1.any (fun it => decide (it.quantity < 0))
    · rw [if_pos hneg] at h
      cases h
    · rw [if_neg hneg] at h
      injection h with h
      injection h with h1 h
      injection h with h2 h3
      subst h1
      subst h2
      subst h3
      refine ⟨rfl, ?_⟩
      intro it hit
      by_contra hc
      apply hneg
      rw [List.any_eq_true]
      exact ⟨it, hit, by simpa using hc⟩

/-! ### Ticket creation (`TicketService.create_tickets_for_order`) -/

theorem countP_map_const {α β : Type} (f : α → β) (p : β → Bool) (b : Bool)
    (hb : ∀ a, p (f a) = b) (l : List α) :
    (l.map f).countP p = if b then l.length else 0 := by
  induction l with
  | nil => cases b <;> simp
  | cons a rest ih =>
    rw [List.map_cons, List.countP_cons, ih, hb]
    cases b <;> simp

theorem create_tickets_length (o : Order) :
    ∀ (items : List OrderItem) (c : Nat),
      (create_tickets_for_order o items c).length =
        (items.map (fun it => it.quantity.toNat)).sum := by
  intro items
  induction items with
  | nil => intro c; rfl
  | cons it rest ih =>
    intro c
    simp only [create_tickets_for_order, List.length_append, List.length_map,
      List.length_range, List.map_cons, List.sum_cons, ih]

theorem create_tickets_countP (o : Order) (i : Nat) :
    ∀ (items : List OrderItem) (c : Nat),
      ((create_tickets_for_order o items c).countP (fun t => t.ticketTypeId == i)) =
        ((items.filter (fun it => it.ticketTypeId == i)).map
          (fun it => it.quantity.toNat)).sum := by
  intro items
  induction items with
  | nil => intro c; rfl
  | cons it rest ih =>
    intro c
    simp only [create_tickets_for_order, List.countP_append, ih]
    by_cases hmatch : it.ticketTypeId = i
    · rw [countP_map_const _ _ true (by intro a; simpa using hmatch),
        List.filter_cons_of_pos (by simpa using hmatch)]
      simp
    · rw [countP_map_const _ _ false (by intro a; simpa using hmatch),
        List.filter_cons_of_neg (by simpa using hmatch)]
      simp

theorem create_tickets_mem (o : Order) :
    ∀ (items : List OrderItem) (c : Nat) (t : Ticket),
      t ∈ create_tickets_for_order o items c →
      t.orderId = o.id ∧ t.userId = o.userId ∧
        ∃ it ∈ items, t.ticketTypeId = it.ticketTypeId ∧ t.eventId = it.eventId := by
  intro items
  induction items with
  | nil =>
    intro c t ht
    cases ht
  | cons it rest ih =>
    intro c t ht
    simp only [create_tickets_for_order, List.mem_append] at ht
    cases ht with
    | inl hblock =>
      rw [List.mem_map] at hblock
      obtain ⟨j, _, hj⟩ := hblock
      rw [← hj]
      exact ⟨rfl, rfl, it, List.mem_cons_self it rest, rfl, rfl⟩
    | inr hrest =>
      obtain ⟨h1, h2, it2, hit2, h3⟩ := ih _ t hrest
      exact ⟨h1, h2, it2, List.mem_cons_of_mem it hit2, h3⟩

theorem range'_append_own (c n : Nat) :
    ∀ m : Nat, List.range' c n ++ List.range' (c + n) m = List.range' c (n + m) := by
  induction n generalizing c with
  | zero => intro m; simp
  | succ k ih =>
    intro m
    rw [List.range'_succ, List.cons_append]
    have h1 : c + (k + 1) = c + 1 + k := by omega
    rw [h1, ih (c + 1) m]
    have h2 : k + 1 + m = (k + m) + 1 := by omega
    rw [h2, List.range'_succ]

theorem create_tickets_codes (o : Order) :
    ∀ (items : List OrderItem) (c : Nat),
      (create_tickets_for_order o items c).map (fun t => t.uniqueCode) =
        List.range' c ((items.map (fun it => it.quantity.toNat)).sum) := by
  intro items
  induction items with
  | nil => intro c; rfl
  | cons it rest ih =>
    intro c
    simp only [create_tickets_for_order, List.map_append, List.map_map, ih]
    have h1 : (List.range it.quantity.toNat).map
        ((fun t : Ticket => t.uniqueCode) ∘ (fun j =>
          ({ orderId := o.id, ticketTypeId := it.ticketTypeId, userId := o.userId,
             eventId := it.eventId, uniqueCode := c + j } : Ticket))) =
        List.range' c it.quantity.toNat := by
      rw [List.range'_eq_map_range]
      rfl
    rw [h1, range'_append_own]
    rfl

theorem create_tickets_codes_nodup (o : Order) (items : List OrderItem) (c : Nat) :
    ((create_tickets_for_order o items c).map (fun t => t.uniqueCode)).Nodup := by
  rw [create_tickets_codes]
  exact List.nodup_range' _ _

/-! ### Anatomy of `reservePhase` and `checkout` -/

theorem checkout_error_state (gw : Bool) (cart : List CartLine) (user : Option UserRef)
    (st : DBState) (e : CheckoutErr) (h : checkoutBody gw cart user st = .error e) :
    checkout gw cart user st = (.error e, st) := by
  simp only [checkout, h]

theorem checkout_ok_state (gw : Bool) (cart : List CartLine) (user : Option UserRef)
    (st : DBState) (oid : Nat) (st2 : DBState)
    (h : checkoutBody gw cart user st = .ok (oid, st2)) :
    checkout gw cart user st = (.ok oid, st2) := by
  simp only [checkout, h]

theorem checkout_fst_error (gw : Bool) (cart : List CartLine) (user : Option UserRef)
    (st : DBState) (e : CheckoutErr) (h : (checkout gw cart user st).1 = .error e) :
    checkoutBody gw cart user st = .error e := by
  cases hb : checkoutBody gw cart user st with
  | ok val =>
    obtain ⟨oid, st2⟩ := val
    rw [checkout_ok_state gw cart user st oid st2 hb] at h
    cases h
  | error e2 =>
    rw [checkout_error_state gw cart user st e2 hb] at h
    injection h with h
    rw [← h]

theorem checkoutBody_of_reserve_error (gw : Bool) (cart : List CartLine)
    (user : Option UserRef) (st : DBState) (e : CheckoutErr)
    (h : reservePhase cart user st = .error e) :
    checkoutBody gw cart user st = .error e := by
  simp only [checkoutBody, h]

theorem reservePhase_ok_anatomy (cart : List CartLine) (user : Option UserRef)
    (st : DBState) (oid uid : Nat) (total : Int) (st1 : DBState)
    (h : reservePhase cart user st = .ok (oid, uid, total, st1)) :
    oid = st.nextOrderId ∧
    (∃ items, create_order_items oid st.ticketTypes cart = .ok (items, total, st1.ticketTypes) ∧
      st1.orders = st.orders ++
        [{ id := oid, userId := uid, status := "created", totalAmount := 0 }] ∧
      st1.orderItems = st.orderItems ++ items) ∧
    st1.tickets = st.tickets ∧ st1.holds = st.holds ∧
    st1.nextOrderId = oid + 1 ∧ st1.nextCode = st.nextCode ∧
    (∃ u : UserRef, user = some u ∧ uid = u.id ∧ u.isAuthenticated = true) ∧
    validate_checkout_request st.ticketTypes cart user = .ok () := by
  unfold reservePhase at h
  cases hv : validate_checkout_request st.ticketTypes cart user with
  | error e =>
    simp only [hv] at h
    cases h
  | ok unitVal =>
    cases unitVal
    simp only [hv] at h
    cases user with
    | none => cases h
    | some u =>
      cases hco : create_order_items st.nextOrderId st.ticketTypes cart with
      | error e =>
        simp only [hco] at h
        cases h
      | ok val =>
        obtain ⟨items, total1, tts2⟩ := val
        simp only [hco] at h
        injection h with h
        injection h with h1 h
        injection h with h2 h
        injection h with h3 h4
        subst h1
        subst h2
        subst h3
        subst h4
        have hauth : u.isAuthenticated = true := by
          unfold validate_checkout_request at hv
          by_cases hemp : cart.isEmpty
          · rw [if_pos hemp] at hv
            cases hv
          · rw [if_neg hemp] at hv
            by_cases ha : u.isAuthenticated
            · exact ha
            · simp only [ha, Bool.not_false, if_true] at hv
              cases hv
        exact ⟨rfl, ⟨items, hco, rfl, rfl⟩, rfl, rfl, rfl, rfl, ⟨u, rfl, rfl, hauth⟩, rfl⟩

theorem checkoutBody_false_not_ok (cart : List CartLine) (user : Option UserRef)
    (st : DBState) (val : Nat × DBState) :
    checkoutBody false cart user st ≠ .ok val := by
  intro h
  unfold checkoutBody at h
  cases hres : reservePhase cart user st with
  | error e =>
    simp only [hres] at h
    cases h
  | ok v =>
    obtain ⟨oid, uid, total, st1⟩ := v
    simp only [hres] at h
    simp at h

theorem checkoutBody_ok_anatomy (gw : Bool) (cart : List CartLine) (user : Option UserRef)
    (st : DBState) (oid : Nat) (st3 : DBState)
    (h : checkoutBody gw cart user st = .ok (oid, st3)) :
    ∃ uid total st1, reservePhase cart user st = .ok (oid, uid, total, st1) ∧ gw = true ∧
      st3.ticketTypes = st1.ticketTypes ∧
      st3.orders = st1.orders.map (fun (o : Order) =>
        if o.id == oid then { o with status := "paid", totalAmount := total } else o) ∧
      st3.holds = st1.holds ∧
      st3.orderItems = st1.orderItems ∧
      st3.tickets = st1.tickets ++ create_tickets_for_order
        { id := oid, userId := uid, status := "paid", totalAmount := total }
        (st1.orderItems.filter (fun it => it.orderId == oid)) st1.nextCode ∧
      st3.nextOrderId = st1.nextOrderId ∧
      st3.nextCode = st1.nextCode +
        ((st1.orderItems.filter (fun it => it.orderId == oid)).map
          (fun it => it.quantity.toNat)).sum := by
  unfold checkoutBody at h
  cases hres : reservePhase cart user st with
  | error e =>
    simp only [hres] at h
    cases h
  | ok v =>
    obtain ⟨oid1, uid, total, st1⟩ := v
    simp only [hres] at h
    cases gw with
    | false => simp at h
    | true =>
      rw [if_pos rfl] at h
      injection h with h
      injection h with h1 h2
      subst h1
      rw [← h2]
      exact ⟨uid, total, st1, rfl, rfl, rfl, rfl, rfl, rfl, rfl, rfl, rfl⟩

/-! ### Claim C1: the reservation step -/

/-- C1: reservation re-checks `sold + quantity ≤ capacity` against the
ticket-type rows only (`create_order_items` reads no hold state — its type
takes only the ledger rows); on any failure the whole checkout returns the
raised error with the pre-attempt state (no partial `sold` increment, Order
or OrderItem survives); on success `sold` grows by each line's quantity
(`soldAfter`), and the Order (status `'created'`) and the OrderItem rows
(unit-price snapshot, line total — `itemsSpec`) are created. -/
theorem checkout_reservation (gw : Bool) (cart : List CartLine) (user : Option UserRef)
    (st : DBState) (hnodup : IdsNodup st.ticketTypes) :
    (∀ e, (checkout gw cart user st).1 = .error e → (checkout gw cart user st).2 = st) ∧
    (∀ e, reservePhase cart user st = .error e → checkout gw cart user st = (.error e, st)) ∧
    (∀ oid uid total st1, reservePhase cart user st = .ok (oid, uid, total, st1) →
      oid = st.nextOrderId ∧
      st1.orders = st.orders ++
        [{ id := oid, userId := uid, status := "created", totalAmount := 0 }] ∧
      st1.ticketTypes = soldAfter st.ticketTypes cart ∧
      (∃ items, itemsSpec oid st.ticketTypes cart = some items ∧
        st1.orderItems = st.orderItems ++ items ∧ ∀ it ∈ items, 0 ≤ it.quantity) ∧
      st1.tickets = st.tickets ∧ st1.holds = st.holds) := by
  refine ⟨?_, ?_, ?_⟩
  · intro e h
    rw [checkout_error_state gw cart user st e (checkout_fst_error gw cart user st e h)]
  · intro e h
    exact checkout_error_state gw cart user st e
      (checkoutBody_of_reserve_error gw cart user st e h)
  · intro oid uid total st1 h
    obtain ⟨hoid, ⟨items, hco, horders, hitems⟩, htk, hh, _, _, _, _⟩ :=
      reservePhase_ok_anatomy cart user st oid uid total st1 h
    obtain ⟨hp, hnonneg⟩ := create_order_items_ok oid st.ticketTypes cart items total
      st1.ticketTypes hco
    refine ⟨hoid, horders, ?_, ⟨items, ?_, hitems, hnonneg⟩, htk, hh⟩
    · exact processLines_ok_ticketTypes oid cart st.ticketTypes items total
        st1.ticketTypes hnodup hp
    · exact processLines_ok_items oid cart st.ticketTypes items total st1.ticketTypes hp

/-- Witness for C1: a failing checkout at a concrete state returns the
pre-attempt state unchanged. -/
theorem checkout_reservation_witness :
    (checkout false (oneLineCart 1) (some aliceUser) raceDB).2 = raceDB :=
  (checkout_reservation false (oneLineCart 1) (some aliceUser) raceDB
    (by unfold IdsNodup; decide)).1 .paymentRejected rfl

/-! ### Claim C2: payment decline leaves no trace -/

/-- C2: when the gateway returns failure the checkout raises and the
persistent state is identical to the pre-attempt state — `sold` delta zero,
and no Order, OrderItem or Ticket row of the attempt remains; when the
reservation itself succeeded the raised error is the payment rejection. -/
theorem checkout_payment_declined (cart : List CartLine) (user : Option UserRef)
    (st : DBState) :
    ((checkout false cart user st).2 = st ∧
      (checkout false cart user st).2.ticketTypes = st.ticketTypes ∧
      (checkout false cart user st).2.orders = st.orders ∧
      (checkout false cart user st).2.orderItems = st.orderItems ∧
      (checkout false cart user st).2.tickets = st.tickets ∧
      ∃ e, (checkout false cart user st).1 = .error e) ∧
    (∀ oid uid total st1, reservePhase cart user st = .ok (oid, uid, total, st1) →
      checkout false cart user st = (.error .paymentRejected, st)) := by
  have hmain : ∀ e, checkoutBody false cart user st = .error e →
      checkout false cart user st = (.error e, st) :=
    fun e he => checkout_error_state false cart user st e he
  cases hb : checkoutBody false cart user st with
  | ok val => exact absurd hb (checkoutBody_false_not_ok cart user st val)
  | error e =>
    have hck := hmain e hb
    rw [hck]
    refine ⟨⟨rfl, rfl, rfl, rfl, rfl, ⟨e, rfl⟩⟩, ?_⟩
    intro oid uid total st1 hres
    have : checkoutBody false cart user st = .error .paymentRejected := by
      unfold checkoutBody
      simp only [hres]
      simp
    rw [this] at hb
    injection hb with hb
    rw [← hb]

/-- Witness for C2: a concrete declined checkout whose reservation phase
succeeded returns the payment-rejected error and the untouched state. -/
theorem checkout_payment_declined_witness :
    checkout false (oneLineCart 1) (some aliceUser) raceDB =
      (.error .paymentRejected, raceDB) :=
  (checkout_payment_declined (oneLineCart 1) (some aliceUser) raceDB).2 0 1 50
    { raceDB with
      ticketTypes := [{ capOneTT with sold := 1 }]
      orders := [{ id := 0, userId := 1, status := "created", totalAmount := 0 }]
      orderItems := [{ orderId := 0, eventId := 10, ticketTypeId := 1, name := "General",
                       unitPrice := 50, quantity := 1, lineTotal := 50 }]
      nextOrderId := 1 }
    rfl

/-! ### Claim C6: the ledger invariant `0 ≤ sold ≤ capacity` -/

/-- C6: `0 ≤ sold` is inherent in the `Nat`-valued column (the
`tickettype_sold_gte_0` check constraint aborts any update below zero), and
`sold ≤ capacity` is preserved by every checkout outcome; the refund path
never touches the ticket-type rows, and no hold operation (add to cart,
update quantity, remove from cart) changes them either. -/
theorem sold_invariant (gw : Bool) (cart : List CartLine) (user : Option UserRef)
    (st : DBState) (hnodup : IdsNodup st.ticketTypes) (hinv : SoldInv st.ticketTypes) :
    SoldInv (checkout gw cart user st).2.ticketTypes ∧
    (∀ oid, (refund_booking st oid).ticketTypes = st.ticketTypes) ∧
    (∀ cart0 ttId qp sk uid now r, add_to_cart st cart0 ttId qp sk uid now = some r →
      r.db.ticketTypes = st.ticketTypes) ∧
    (∀ cart0 ttId d sk uid now r, update_quantity st cart0 ttId d sk uid now = some r →
      r.db.ticketTypes = st.ticketTypes) ∧
    (∀ cart0 ttId sk, (remove_from_cart st cart0 ttId sk).db.ticketTypes = st.ticketTypes) := by
  refine ⟨?_, fun oid => rfl, ?_, ?_, ?_⟩
  · cases hb : checkoutBody gw cart user st with
    | error e =>
      rw [checkout_error_state gw cart user st e hb]
      exact hinv
    | ok val =>
      obtain ⟨oid, st3⟩ := val
      rw [checkout_ok_state gw cart user st oid st3 hb]
      show SoldInv st3.ticketTypes
      obtain ⟨uid, total, st1, hres, _, htts3, _⟩ :=
        checkoutBody_ok_anatomy gw cart user st oid st3 hb
      obtain ⟨hoid, ⟨items, hco, _, _⟩, _⟩ :=
        reservePhase_ok_anatomy cart user st oid uid total st1 hres
      obtain ⟨hp, _⟩ := create_order_items_ok oid st.ticketTypes cart items total
        st1.ticketTypes hco
      rw [htts3]
      exact processLines_ok_soldInv oid cart st.ticketTypes items total
        st1.ticketTypes hnodup hinv hp
  · intro cart0 ttId qp sk uid now r h
    unfold add_to_cart at h
    cases hfind : findActiveTicketType st.ticketTypes ttId with
    | none =>
      simp only [hfind] at h
      cases h
    | some tt =>
      simp only [hfind] at h
      split at h
      · injection h with h
        rw [← h]
      · injection h with h
        rw [← h]
  · intro cart0 ttId d sk uid now r h
    unfold update_quantity at h
    cases hget : cartGet cart0 ttId with
    | none =>
      simp only [hget] at h
      injection h with h
      rw [← h]
    | some q =>
      simp only [hget] at h
      cases hfind : findActiveTicketType st.ticketTypes ttId with
      | none =>
        simp only [hfind] at h
        cases h
      | some tt =>
        simp only [hfind] at h
        split at h
        · injection h with h
          rw [← h]
        · injection h with h
          rw [← h]
  · intro cart0 ttId sk
    unfold remove_from_cart
    by_cases hmem : cart0.any (fun p => p.1 == ttId)
    · rw [if_pos hmem]
    · rw [if_neg hmem]

/-- Witness for C6: the invariant survives a concrete successful checkout. -/
theorem sold_invariant_witness :
    SoldInv (checkout true (oneLineCart 1) (some aliceUser) raceDB).2.ticketTypes :=
  (sold_invariant true (oneLineCart 1) (some aliceUser) raceDB
    (by unfold IdsNodup; decide) (by unfold SoldInv; decide)).1

/-! ### Claim C3: issued tickets never exceed capacity -/

theorem sum_toNat_cast {α : Type} (f : α → Int) (L : List α) (h : ∀ x ∈ L, 0 ≤ f x) :
    (((L.map (fun x => (f x).toNat)).sum : Nat) : Int) = (L.map f).sum := by
  induction L with
  | nil => simp
  | cons a rest ih =>
    simp only [List.map_cons, List.sum_cons, Nat.cast_add]
    rw [ih (fun x hx => h x (List.mem_cons_of_mem a hx)),
      Int.toNat_of_nonneg (h a (List.mem_cons_self a rest))]

theorem checkout_preserves_inv (gw : Bool) (cart : List CartLine) (user : Option UserRef)
    (st : DBState) (hinv : CheckoutInv st) :
    CheckoutInv (checkout gw cart user st).2 ∧
    (checkout gw cart user st).2.ticketTypes.map (fun t => (t.id, t.capacity)) =
      st.ticketTypes.map (fun t => (t.id, t.capacity)) := by
  obtain ⟨hnodup, hfresh, hledger⟩ := hinv
  cases hb : checkoutBody gw cart user st with
  | error e =>
    rw [checkout_error_state gw cart user st e hb]
    exact ⟨⟨hnodup, hfresh, hledger⟩, rfl⟩
  | ok val =>
    obtain ⟨oid, st3⟩ := val
    rw [checkout_ok_state gw cart user st oid st3 hb]
    show CheckoutInv st3 ∧ _
    obtain ⟨uid, total, st1, hres, hgw, htts, hord, hholds, hoi, htk, hnoid, hncode⟩ :=
      checkoutBody_ok_anatomy gw cart user st oid st3 hb
    obtain ⟨hoid, ⟨items, hco, hord1, hoi1⟩, htk1, hholds1, hnoid1, hncode1, _, _⟩ :=
      reservePhase_ok_anatomy cart user st oid uid total st1 hres
    obtain ⟨hp, hnonneg⟩ := create_order_items_ok oid st.ticketTypes cart items total
      st1.ticketTypes hco
    have htts1 : st1.ticketTypes = soldAfter st.ticketTypes cart :=
      processLines_ok_ticketTypes oid cart st.ticketTypes items total st1.ticketTypes hnodup hp
    have hsoldinv : SoldInv st1.ticketTypes :=
      processLines_ok_soldInv oid cart st.ticketTypes items total st1.ticketTypes hnodup
        (fun tt h => (hledger tt h).2) hp
    have hspec := processLines_ok_items oid cart st.ticketTypes items total st1.ticketTypes hp
    have hf2 := itemsSpec_fields oid cart st.ticketTypes items hspec
    have hitem_oid : ∀ it ∈ items, it.orderId = oid := forall₂_items_orderId oid cart items hf2
    have hfilter : st1.orderItems.filter (fun it => it.orderId == oid) = items := by
      rw [hoi1, List.filter_append]
      have holdpart : st.orderItems.filter (fun it => it.orderId == oid) = [] := by
        rw [List.filter_eq_nil_iff]
        intro it hit
        have hlt := hfresh it hit
        simp only [beq_iff_eq]
        omega
      have hnewpart : items.filter (fun it => it.orderId == oid) = items := by
        rw [List.filter_eq_self]
        intro it hit
        simp [hitem_oid it hit]
      rw [holdpart, hnewpart, List.nil_append]
    constructor
    · refine ⟨?_, ?_, ?_⟩
      · rw [htts, htts1]
        unfold IdsNodup soldAfter
        rw [List.map_map]
        exact hnodup
      · rw [hoi, hoi1, hnoid, hnoid1]
        intro it hit
        rw [List.mem_append] at hit
        cases hit with
        | inl h1 =>
          have := hfresh it h1
          omega
        | inr h2 =>
          have := hitem_oid it h2
          omega
      · intro tt' htt'
        have htt'' := htt'
        rw [htts, htts1] at htt''
        unfold soldAfter at htt''
        rw [List.mem_map] at htt''
        obtain ⟨tt, htt, hf⟩ := htt''
        have hcount : ticketCount st3 tt'.id = ticketCount st tt'.id +
            ((items.filter (fun it => it.ticketTypeId == tt'.id)).map
              (fun it => it.quantity.toNat)).sum := by
          unfold ticketCount
          rw [htk, List.countP_append, htk1, hfilter, create_tickets_countP]
        have hq : ((items.filter (fun it => it.ticketTypeId == tt'.id)).map
            (fun it => it.quantity)).sum = cartSumFor cart tt'.id :=
          forall₂_items_sum oid tt'.id cart items hf2
        have hqn : ∀ x ∈ items.filter (fun it => it.ticketTypeId == tt'.id), 0 ≤ x.quantity :=
          fun x hx => hnonneg x (List.mem_of_mem_filter hx)
        have hcast : (Nat.cast (((items.filter (fun it => it.ticketTypeId == tt'.id)).map
            (fun it => it.quantity.toNat)).sum) : Int) =
            ((items.filter (fun it => it.ticketTypeId == tt'.id)).map
              (fun it => it.quantity)).sum :=
          sum_toNat_cast (fun (it : OrderItem) => it.quantity)
            (items.filter (fun it => it.ticketTypeId == tt'.id)) hqn
        have hid' : tt'.id = tt.id := by rw [← hf]
        have hcap' : tt'.capacity = tt.capacity := by rw [← hf]
        have hsold' : tt'.sold = ((tt.sold : Int) + cartSumFor cart tt.id).toNat := by
          rw [← hf]
        constructor
        · rw [hcount]
          have hbase := (hledger tt htt).1
          rw [hid'] at hq hcast ⊢
          rw [hsold']
          omega
        · have hmem1 : tt' ∈ st1.ticketTypes := by
            rw [htts1]
            unfold soldAfter
            rw [List.mem_map]
            exact ⟨tt, htt, hf⟩
          exact hsoldinv tt' hmem1
    · rw [htts, htts1]
      unfold soldAfter
      rw [List.map_map]
      rfl

theorem runSchedule_inv (reqs : List CheckoutReq) :
    ∀ st : DBState, CheckoutInv st →
      CheckoutInv (runSchedule st reqs) ∧
      (runSchedule st reqs).ticketTypes.map (fun t => (t.id, t.capacity)) =
        st.ticketTypes.map (fun t => (t.id, t.capacity)) := by
  induction reqs with
  | nil =>
    intro st hinv
    exact ⟨hinv, rfl⟩
  | cons r rs ih =>
    intro st hinv
    obtain ⟨h1, h2⟩ := checkout_preserves_inv r.gwSuccess r.cart r.user st hinv
    obtain ⟨h3, h4⟩ := ih _ h1
    exact ⟨h3, h4.trans h2⟩

/-- C3: under the serialization forced by the per-row lock
(`select_for_update` inside `transaction.atomic`), any schedule of checkout
attempts never issues more tickets for a ticket type than its capacity; and
in the concrete race (capacity 1, sold 0, two one-ticket checkouts, in
either serialization order) exactly one buyer gets a paid order with one
ticket while the other fails with the insufficient-availability validation
error, leaving `sold = 1` and exactly one ticket issued. -/
theorem tickets_bounded_by_capacity (st : DBState) (reqs : List CheckoutReq)
    (hinv : CheckoutInv st) :
    (∀ tt ∈ st.ticketTypes, ticketCount (runSchedule st reqs) tt.id ≤ tt.capacity) ∧
    ((checkout true (oneLineCart 1) (some aliceUser) raceDB).1 = .ok 0 ∧
      (checkout true (oneLineCart 1) (some aliceUser) raceDB).2.orders.map
        (fun o => o.status) = ["paid"] ∧
      ticketCount (checkout true (oneLineCart 1) (some aliceUser) raceDB).2 1 = 1 ∧
      (checkout true (oneLineCart 1) (some bobUser)
        (checkout true (oneLineCart 1) (some aliceUser) raceDB).2).1 = .error .unavailable ∧
      (checkout true (oneLineCart 1) (some bobUser)
        (checkout true (oneLineCart 1) (some aliceUser) raceDB).2).2.ticketTypes.map
        (fun t => t.sold) = [1] ∧
      ticketCount (checkout true (oneLineCart 1) (some bobUser)
        (checkout true (oneLineCart 1) (some aliceUser) raceDB).2).2 1 = 1) ∧
    ((checkout true (oneLineCart 1) (some bobUser) raceDB).1 = .ok 0 ∧
      (checkout true (oneLineCart 1) (some aliceUser)
        (checkout true (oneLineCart 1) (some bobUser) raceDB).2).1 = .error .unavailable ∧
      ticketCount (checkout true (oneLineCart 1) (some aliceUser)
        (checkout true (oneLineCart 1) (some bobUser) raceDB).2).2 1 = 1) := by
  refine ⟨?_, ⟨rfl, rfl, rfl, rfl, rfl, rfl⟩, ⟨rfl, rfl, rfl⟩⟩
  intro tt htt
  obtain ⟨⟨_, _, hled⟩, hpair⟩ := runSchedule_inv reqs st hinv
  have hmem : (tt.id, tt.capacity) ∈
      (runSchedule st reqs).ticketTypes.map (fun t => (t.id, t.capacity)) := by
    rw [hpair]
    exact List.mem_map_of_mem _ htt
  rw [List.mem_map] at hmem
  obtain ⟨tt', htt', hpair'⟩ := hmem
  have hid : tt'.id = tt.id := congrArg Prod.fst hpair'
  have hcap : tt'.capacity = tt.capacity := congrArg Prod.snd hpair'
  have hb := hled tt' htt'
  rw [← hid, ← hcap]
  omega

/-- Witness for C3 at a concrete one-ticket-type state and a concrete
two-request schedule. -/
theorem tickets_bounded_by_capacity_witness :
    ticketCount (runSchedule raceDB
      [{ gwSuccess := true, cart := oneLineCart 1, user := some aliceUser },
       { gwSuccess := true, cart := oneLineCart 1, user := some bobUser }]) 1 ≤ 1 :=
  (tickets_bounded_by_capacity raceDB
    [{ gwSuccess := true, cart := oneLineCart 1, user := some aliceUser },
     { gwSuccess := true, cart := oneLineCart 1, user := some bobUser }]
    (by unfold CheckoutInv IdsNodup ticketCount; decide)).1 capOneTT (by decide)

/-! ### Claim C9: one ticket per purchased unit -/

/-- C9: a successful commit creates exactly one Ticket per purchased unit —
the ticket count equals the sum of the order's item quantities — each
ticket carrying the order, the item's ticket type and event, and the buying
user, with pairwise-distinct unique codes; and through the checkout view a
successful checkout leaves the order `'paid'` and deletes every hold of the
owner's session. -/
theorem tickets_per_unit (order : Order) (items : List OrderItem) (startCode : Nat) :
    ((∀ it ∈ items, 0 ≤ it.quantity) →
      (((create_tickets_for_order order items startCode).length : Nat) : Int) =
        (items.map (fun it => it.quantity)).sum) ∧
    (∀ t ∈ create_tickets_for_order order items startCode,
      t.orderId = order.id ∧ t.userId = order.userId ∧
        ∃ it ∈ items, t.ticketTypeId = it.ticketTypeId ∧ t.eventId = it.eventId) ∧
    ((create_tickets_for_order order items startCode).map (fun t => t.uniqueCode)).Nodup ∧
    (∀ gw cart user sk st oid st2,
      checkout_view_post gw cart user sk st = (.ok oid, st2) →
      (∃ o ∈ st2.orders, o.id = oid ∧ o.status = "paid") ∧
      ∀ hh ∈ st2.holds, ¬(hh.sessionKey = sk)) := by
  refine ⟨?_, create_tickets_mem order items startCode,
    create_tickets_codes_nodup order items startCode, ?_⟩
  · intro hpos
    rw [create_tickets_length]
    exact sum_toNat_cast (fun it => it.quantity) items hpos
  · intro gw cart user sk st oid st2 h
    unfold checkout_view_post at h
    cases hb : checkoutBody gw cart user st with
    | error e =>
      simp only [checkout_error_state gw cart user st e hb] at h
      injection h with h1 h2
      cases h1
    | ok val =>
      obtain ⟨oid1, st3⟩ := val
      simp only [checkout_ok_state gw cart user st oid1 st3 hb] at h
      injection h with h1 h2
      injection h1 with h1
      subst h1
      obtain ⟨uid, total, st1, hres, _, _, hord, _, _, _, _, _⟩ :=
        checkoutBody_ok_anatomy gw cart user st oid1 st3 hb
      obtain ⟨hoid, ⟨items1, hco, hord1, hoi1⟩, _⟩ :=
        reservePhase_ok_anatomy cart user st oid1 uid total st1 hres
      constructor
      · rw [← h2]
        show ∃ o ∈ st3.orders, o.id = oid1 ∧ o.status = "paid"
        rw [hord, hord1]
        refine ⟨{ id := oid1, userId := uid, status := "paid", totalAmount := total },
          ?_, rfl, rfl⟩
        rw [List.mem_map]
        refine ⟨{ id := oid1, userId := uid, status := "created", totalAmount := 0 },
          ?_, by simp⟩
        exact List.mem_append_right _ (by simp)
      · intro hh hmem
        rw [← h2] at hmem
        have hflt := (List.mem_filter.mp hmem).2
        intro hceq
        simp [hceq] at hflt

/-- Witness for C9: two units on one item yield two tickets. -/
theorem tickets_per_unit_witness :
    (((create_tickets_for_order { id := 0, userId := 1, status := "paid", totalAmount := 100 }
      [{ orderId := 0, eventId := 10, ticketTypeId := 1, name := "General",
         unitPrice := 50, quantity := 2, lineTotal := 100 }] 0).length : Nat) : Int) = 2 :=
  (tickets_per_unit { id := 0, userId := 1, status := "paid", totalAmount := 100 }
    [{ orderId := 0, eventId := 10, ticketTypeId := 1, name := "General",
       unitPrice := 50, quantity := 2, lineTotal := 100 }] 0).1 (by decide)

/-! ### Claim C10: add-to-cart never rejects a malformed quantity -/

theorem parse_quantity_ge_one (qp : QtyParam) : 1 ≤ parse_quantity qp := by
  cases qp with
  | missing => exact le_refl 1
  | malformed => exact le_refl 1
  | val n => exact le_max_right n 1

theorem find?_map_set (i q : Nat) (cart : SessionCart)
    (hany : cart.any (fun p => p.1 == i) = true) :
    (cart.map (fun p => if p.1 == i then (i, q) else p)).find? (fun p => p.1 == i) =
      some (i, q) := by
  induction cart with
  | nil => simp at hany
  | cons a rest ih =>
    rw [List.map_cons]
    by_cases ha : (a.1 == i) = true
    · rw [if_pos ha, List.find?_cons_of_pos _ (by simp)]
    · rw [if_neg ha, List.find?_cons_of_neg _ (by simpa using ha)]
      apply ih
      rw [List.any_cons] at hany
      simpa [ha] using hany

theorem find?_append_set (i q : Nat) (cart : SessionCart)
    (hany : ¬cart.any (fun p => p.1 == i) = true) :
    (cart ++ [(i, q)]).find? (fun p => p.1 == i) = some (i, q) := by
  induction cart with
  | nil =>
    rw [List.nil_append, List.find?_cons_of_pos _ (by simp)]
  | cons a rest ih =>
    rw [List.cons_append]
    have ha : ¬(a.1 == i) = true := by
      intro hc
      apply hany
      rw [List.any_cons, hc]
      rfl
    have hstep : List.find? (fun p => p.1 == i) (a :: (rest ++ [(i, q)])) =
        List.find? (fun p => p.1 == i) (rest ++ [(i, q)]) :=
      List.find?_cons_of_neg _ ha
    rw [hstep]
    apply ih
    intro hc
    apply hany
    rw [List.any_cons, hc]
    simp

theorem cartGet_cartSet (cart : SessionCart) (i q : Nat) :
    cartGet (cartSet cart i q) i = some q := by
  unfold cartGet cartSet
  by_cases hany : cart.any (fun p => p.1 == i) = true
  · rw [if_pos hany, find?_map_set i q cart hany]
    rfl
  · rw [if_neg hany, find?_append_set i q cart hany]
    rfl

/-- C10: the quantity parameter of `add_to_cart` is never rejected —
missing, malformed and below-1 values all parse to 1; with an active ticket
type the request always yields a result, the stored cart quantity (which is
also the upserted hold quantity) is silently clamped to effective
availability plus the session's current cart quantity, and zero
availability is answered with the sold-out message and no state change. -/
theorem add_to_cart_clamps (st : DBState) (cart : SessionCart) (ttId : Nat) (qp : QtyParam)
    (sk : String) (uid : Option Nat) (now : Nat) (tt : TicketType)
    (hfind : findActiveTicketType st.ticketTypes ttId = some tt) :
    parse_quantity .missing = 1 ∧ parse_quantity .malformed = 1 ∧
    (∀ n : Int, n < 1 → parse_quantity (.val n) = 1) ∧
    ∃ r, add_to_cart st cart ttId qp sk uid now = some r ∧
      (effective_available tt st.holds sk now ≤ 0 →
        r.cart = cart ∧ r.db = st ∧ r.soldOutMessage = true) ∧
      (0 < effective_available tt st.holds sk now →
        r.soldOutMessage = false ∧
        (((cartGet r.cart tt.id).getD 0 : Nat) : Int) ≤
          effective_available tt st.holds sk now + (((cartGet cart tt.id).getD 0 : Nat) : Int) ∧
        r.db.holds = upsertHold st.holds tt.id sk uid ((cartGet r.cart tt.id).getD 0)
          now (now + HOLD_SECONDS)) := by
  refine ⟨rfl, rfl, fun n hn => ?_, ?_⟩
  · unfold parse_quantity
    exact max_eq_right hn.le
  · unfold add_to_cart
    simp only [hfind]
    by_cases heff : effective_available tt st.holds sk now ≤ 0
    · rw [if_pos heff]
      exact ⟨⟨cart, st, true⟩, rfl, fun _ => ⟨rfl, rfl, rfl⟩,
        fun hpos => absurd heff (by omega)⟩
    · rw [if_neg heff]
      have hq1 := parse_quantity_ge_one qp
      cases hget : cartGet cart tt.id with
      | none =>
        simp only [hget]
        refine ⟨_, rfl, fun hle => absurd hle heff, fun hpos => ⟨rfl, ?_, rfl⟩⟩
        rw [cartGet_cartSet]
        simp only [Option.getD_some, Option.getD_none]
        have hle2 := min_le_right (parse_quantity qp) (effective_available tt st.holds sk now)
        omega
      | some q =>
        simp only [hget]
        refine ⟨_, rfl, fun hle => absurd hle heff, fun hpos => ⟨rfl, ?_, rfl⟩⟩
        rw [cartGet_cartSet]
        simp only [Option.getD_some]
        by_cases hclamp : effective_available tt st.holds sk now + (q : Int) <
            (q : Int) + parse_quantity qp
        · rw [if_pos hclamp]
          omega
        · rw [if_neg hclamp]
          omega

/-- Witness for C10: a below-1 quantity is coerced to 1 at a concrete
request against an in-catalog active ticket type. -/
theorem add_to_cart_clamps_witness :
    parse_quantity (.val (-5)) = 1 :=
  (add_to_cart_clamps baseDB [] 1 (.val 99) "a" none 0 genTT rfl).2.2.1 (-5) (by decide)

end Tickio
